import Mathlib

/-!
Shallow embedding of the loan amortization calculator of this repository
(src/index.ts, class Loan) over exact rational arithmetic.

JavaScript finite numbers are modelled as rationals.  Operations whose
JavaScript result is not a finite number (division by zero, 0 raised to a
negative power, powers with a non-integer exponent) are modelled with
Option: none stands for a non-finite (or irrational, hence
unrepresentable) result.  Field names mirror the private fields of the
TypeScript class (prefixed with an underscore); getter and setter methods
keep their TypeScript names.
-/

/-- Number.EPSILON, the bias the source adds before rounding. -/
def jsEpsilon : ℚ := 1 / 2 ^ 52

/-- Truncation toward zero, the rounding JavaScript uses for the remainder
operator on finite operands. -/
def jsTrunc (q : ℚ) : ℤ := if 0 ≤ q then ⌊q⌋ else ⌈q⌉

/-- The test `a % b === 0` of JavaScript on finite numbers: false when the
divisor is zero (NaN never equals 0), otherwise fmod equals zero. -/
def jsModZero (a b : ℚ) : Prop := b ≠ 0 ∧ a - b * (jsTrunc (a / b) : ℚ) = 0

instance (a b : ℚ) : Decidable (jsModZero a b) := by
  unfold jsModZero; infer_instance

/-- The helper `round(num, f)` of the source:
`Math.round((num + Number.EPSILON) * Math.pow(10, f)) / Math.pow(10, f)`.
`Math.round x = ⌊x + 1/2⌋` on finite numbers.  A fractional digit count
`f` (never produced by the class, whose default is 8) would make
`Math.pow(10, f)` irrational; the model returns `num` unchanged there. -/
def jsRoundTo (num : ℚ) (f : ℚ) : ℚ :=
  if f.den = 1 then ((⌊(num + jsEpsilon) * 10 ^ f.num + 1 / 2⌋ : ℤ) : ℚ) / 10 ^ f.num
  else num

/-- Model of `Math.pow b e` in the rational setting: defined for integer
exponents, with `0` to a negative power (JavaScript Infinity) mapped to
none; non-integer exponents (irrational or NaN results) are none. -/
def jsPow? (b : ℚ) (e : ℚ) : Option ℚ :=
  if e.den = 1 then (if b = 0 ∧ e.num < 0 then none else some (b ^ e.num))
  else none

/-- The five repayment frequencies. -/
inductive RepaymentFrequency where
  | yearly
  | quarterly
  | monthly
  | fortnightly
  | weekly
deriving DecidableEq, Repr

/-- A payment of the schedule: `{amount, principal, interest, balance}`. -/
structure LoanPayment where
  amount : ℚ
  principal : ℚ
  interest : ℚ
  balance : ℚ
deriving DecidableEq, Repr

/-- The mutable state of the `Loan` class: every private field, with the
defaults of the field initializers. -/
structure Loan where
  _rate : ℚ := 0
  _termInMonths : ℚ := 0
  _interestOnlyRepayments : ℚ := 0
  _calculated : Bool := false
  _armVariableRate : ℚ := 0
  _amount : ℚ := 0
  _repaymentFrequency : RepaymentFrequency := .monthly
  _extraPayment : ℚ := 0
  _interestOnlyYears : ℚ := 0
  _calculateWeeklyAndFortnightlyRepaymentsBasedOnYearlyRepayments : Bool := false
  _totalCost : ℚ := 0
  _totalInterest : ℚ := 0
  _payments : List LoanPayment := []
  _armFixedRateForRepaymentCount : ℚ := 0
  _armFixedRateForYears : ℚ := 0
  _armRepaymentCountBetweenAdjustments : ℚ := 0
  _armMonthsBetweenAdjustments : ℚ := 12
  _armExpectedAdjustmentRate : ℚ := 0
  _armMaximumInterestRate : ℚ := 0
  _rounding : ℚ := 8
deriving DecidableEq, Repr

/-- A fresh `new Loan()`. -/
def Loan.new : Loan := {}

namespace Loan

/-- Getter `paymentsCountPerYear`. -/
def paymentsCountPerYear (s : Loan) : ℚ :=
  match s._repaymentFrequency with
  | .yearly => 1
  | .quarterly => 4
  | .monthly => 12
  | .fortnightly => 26
  | .weekly => 52

/-- Getter `paymentsCountTotal = Math.floor(ppy * termInMonths / 12)`. -/
def paymentsCountTotal (s : Loan) : ℚ :=
  ((⌊s.paymentsCountPerYear * s._termInMonths / 12⌋ : ℤ) : ℚ)

/-- The loop bound of `_calculate` as a natural number (the loop
`p = 0; p < n; ++p` runs `max 0 n` times for integer `n`). -/
def paymentsCountTotalNat (s : Loan) : ℕ :=
  (⌊s.paymentsCountPerYear * s._termInMonths / 12⌋).toNat

/-- Getter `amount`. -/
def amount (s : Loan) : ℚ := s._amount

/-- Getter `interestRate`. -/
def interestRate (s : Loan) : ℚ := s._rate

/-- Getter `months`. -/
def months (s : Loan) : ℚ := s._termInMonths

/-- Getter `years = Math.floor(termInMonths / 12)`. -/
def years (s : Loan) : ℚ := ((⌊s._termInMonths / 12⌋ : ℤ) : ℚ)

/-- Getter `repaymentFrequency`. -/
def repaymentFrequency (s : Loan) : RepaymentFrequency := s._repaymentFrequency

/-- Getter `extraPayment`. -/
def extraPayment (s : Loan) : ℚ := s._extraPayment

/-- Getter `rounding`. -/
def rounding (s : Loan) : ℚ := s._rounding

/-- Getter `interestOnlyYears`: the stored years when truthy (nonzero),
else derived from the stored repayment count. -/
def interestOnlyYears (s : Loan) : ℚ :=
  if s._interestOnlyYears ≠ 0 then s._interestOnlyYears
  else s._interestOnlyRepayments / s.paymentsCountPerYear

/-- Getter `interestOnlyRepaymentCount`: derived from the stored years
when truthy, else the stored count. -/
def interestOnlyRepaymentCount (s : Loan) : ℚ :=
  if s._interestOnlyYears ≠ 0 then s._interestOnlyYears * s.paymentsCountPerYear
  else s._interestOnlyRepayments

/-- Getter `armFixedRateForRepaymentCount`. -/
def armFixedRateForRepaymentCount (s : Loan) : ℚ :=
  if s._armFixedRateForYears ≠ 0 then s._armFixedRateForYears * s.paymentsCountPerYear
  else s._armFixedRateForRepaymentCount

/-- Getter `armFixedRateForYears`. -/
def armFixedRateForYears (s : Loan) : ℚ :=
  if s._armFixedRateForYears ≠ 0 then s._armFixedRateForYears
  else s._armFixedRateForRepaymentCount / s.paymentsCountPerYear

/-- Getter `armRepaymentCountBetweenAdjustments`: the stored months
(primary when truthy) converted through the current frequency, else the
stored count. -/
def armRepaymentCountBetweenAdjustments (s : Loan) : ℚ :=
  if s._armMonthsBetweenAdjustments ≠ 0 then
    s._armMonthsBetweenAdjustments / 12 * s.paymentsCountPerYear
  else s._armRepaymentCountBetweenAdjustments

/-- Getter `armMonthsBetweenAdjustments`. -/
def armMonthsBetweenAdjustments (s : Loan) : ℚ :=
  if s._armMonthsBetweenAdjustments ≠ 0 then s._armMonthsBetweenAdjustments
  else s._armRepaymentCountBetweenAdjustments / s.paymentsCountPerYear * 12

/-- Getter `armInitialVariableRate`. -/
def armInitialVariableRate (s : Loan) : ℚ := s._armVariableRate

/-- Getter `armExpectedAdjustmentRate`. -/
def armExpectedAdjustmentRate (s : Loan) : ℚ := s._armExpectedAdjustmentRate

/-- Getter `armMaximumInterestRate`. -/
def armMaximumInterestRate (s : Loan) : ℚ := s._armMaximumInterestRate

/-- Setter `amount`. -/
def setAmount (s : Loan) (v : ℚ) : Loan :=
  if s._amount = v then s else { s with _amount := v, _calculated := false }

/-- Setter `interestRate`. -/
def setInterestRate (s : Loan) (v : ℚ) : Loan :=
  if s._rate = v then s else { s with _rate := v, _calculated := false }

/-- Setter `months`. -/
def setMonths (s : Loan) (v : ℚ) : Loan :=
  if s._termInMonths = v then s else { s with _termInMonths := v, _calculated := false }

/-- Setter `years`: guards on `termInMonths === y * 12`, then stores
`y * 12` as the term. -/
def setYears (s : Loan) (v : ℚ) : Loan :=
  if s._termInMonths = v * 12 then s
  else { s with _termInMonths := v * 12, _calculated := false }

/-- Setter `repaymentFrequency`. -/
def setRepaymentFrequency (s : Loan) (v : RepaymentFrequency) : Loan :=
  if s._repaymentFrequency = v then s
  else { s with _repaymentFrequency := v, _calculated := false }

/-- Setter `extraPayment`. -/
def setExtraPayment (s : Loan) (v : ℚ) : Loan :=
  if s._extraPayment = v then s else { s with _extraPayment := v, _calculated := false }

/-- Setter `interestOnlyRepaymentCount`: guards on the stored count, then
clears the stored years. -/
def setInterestOnlyRepaymentCount (s : Loan) (v : ℚ) : Loan :=
  if s._interestOnlyRepayments = v then s
  else { s with _interestOnlyRepayments := v, _interestOnlyYears := 0, _calculated := false }

/-- Setter `interestOnlyYears`: guards on the stored years, then clears
the stored count. -/
def setInterestOnlyYears (s : Loan) (v : ℚ) : Loan :=
  if s._interestOnlyYears = v then s
  else { s with _interestOnlyYears := v, _interestOnlyRepayments := 0, _calculated := false }

/-- Setter `calculateWeeklyAndFortnightlyRepaymentsBasedOnYearlyRepayments`:
the only setter without an equality guard; it always invalidates. -/
def setCalculateWeeklyAndFortnightlyRepaymentsBasedOnYearlyRepayments
    (s : Loan) (v : Bool) : Loan :=
  { s with _calculateWeeklyAndFortnightlyRepaymentsBasedOnYearlyRepayments := v,
           _calculated := false }

/-- Setter `rounding`. -/
def setRounding (s : Loan) (v : ℚ) : Loan :=
  if s._rounding = v then s else { s with _rounding := v, _calculated := false }

/-- Setter `armFixedRateForRepaymentCount`. -/
def setArmFixedRateForRepaymentCount (s : Loan) (v : ℚ) : Loan :=
  if s._armFixedRateForRepaymentCount = v then s
  else { s with _armFixedRateForRepaymentCount := v, _armFixedRateForYears := 0,
                _calculated := false }

/-- Setter `armFixedRateForYears`. -/
def setArmFixedRateForYears (s : Loan) (v : ℚ) : Loan :=
  if s._armFixedRateForYears = v then s
  else { s with _armFixedRateForRepaymentCount := 0, _armFixedRateForYears := v,
                _calculated := false }

/-- Setter `armInitialVariableRate`. -/
def setArmInitialVariableRate (s : Loan) (v : ℚ) : Loan :=
  if s._armVariableRate = v then s
  else { s with _armVariableRate := v, _calculated := false }

/-- Setter `armRepaymentCountBetweenAdjustments`. -/
def setArmRepaymentCountBetweenAdjustments (s : Loan) (v : ℚ) : Loan :=
  if s._armRepaymentCountBetweenAdjustments = v then s
  else { s with _armRepaymentCountBetweenAdjustments := v,
                _armMonthsBetweenAdjustments := 0, _calculated := false }

/-- Setter `armMonthsBetweenAdjustments`. -/
def setArmMonthsBetweenAdjustments (s : Loan) (v : ℚ) : Loan :=
  if s._armMonthsBetweenAdjustments = v then s
  else { s with _armMonthsBetweenAdjustments := v,
                _armRepaymentCountBetweenAdjustments := 0, _calculated := false }

/-- Setter `armExpectedAdjustmentRate`. -/
def setArmExpectedAdjustmentRate (s : Loan) (v : ℚ) : Loan :=
  if s._armExpectedAdjustmentRate = v then s
  else { s with _armExpectedAdjustmentRate := v, _calculated := false }

/-- Setter `armMaximumInterestRate`. -/
def setArmMaximumInterestRate (s : Loan) (v : ℚ) : Loan :=
  if s._armMaximumInterestRate = v then s
  else { s with _armMaximumInterestRate := v, _calculated := false }

/-- Private `_round(num) = round(num, this._rounding)`. -/
def _round (s : Loan) (num : ℚ) : ℚ := jsRoundTo num s._rounding

/-- Private `_calcInterestRateForPeriod`. -/
def _calcInterestRateForPeriod (s : Loan) : ℚ :=
  s.interestRate / s.paymentsCountPerYear / 100

/-- Method `clone()`: a fresh `Loan` with the sixteen configuration
fields copied; the cache fields keep their fresh defaults. -/
def clone (s : Loan) : Loan :=
  { _amount := s._amount
    _rate := s._rate
    _termInMonths := s._termInMonths
    _repaymentFrequency := s._repaymentFrequency
    _extraPayment := s._extraPayment
    _interestOnlyRepayments := s._interestOnlyRepayments
    _interestOnlyYears := s._interestOnlyYears
    _calculateWeeklyAndFortnightlyRepaymentsBasedOnYearlyRepayments :=
      s._calculateWeeklyAndFortnightlyRepaymentsBasedOnYearlyRepayments
    _armFixedRateForRepaymentCount := s._armFixedRateForRepaymentCount
    _armFixedRateForYears := s._armFixedRateForYears
    _armVariableRate := s._armVariableRate
    _armRepaymentCountBetweenAdjustments := s._armRepaymentCountBetweenAdjustments
    _armMonthsBetweenAdjustments := s._armMonthsBetweenAdjustments
    _armExpectedAdjustmentRate := s._armExpectedAdjustmentRate
    _armMaximumInterestRate := s._armMaximumInterestRate
    _rounding := s._rounding }

/-- The annuity-formula branch of the getter `repaymentAmount`
(lines 480-486 of the source).  Note the exponent subtracts the raw
stored field `_interestOnlyRepayments`, not the getter
`interestOnlyRepaymentCount`.  none models a non-finite result of the
unguarded division by `x - 1`. -/
def annuityRepayment? (s : Loan) : Option ℚ :=
  let interest := s._rate / s.paymentsCountPerYear / 100
  match jsPow? (1 + interest) (s.paymentsCountTotal - s._interestOnlyRepayments) with
  | none => none
  | some x =>
    if x - 1 = 0 then none
    else some (s._round (s._amount * x * interest / (x - 1)))

/-- Getter `repaymentAmount`.  For weekly/fortnightly frequencies with
the yearly-basis flag off the source recursively reads
`repaymentAmount` on a monthly clone; that recursive call provably takes
the formula branch (the clone's frequency is monthly), so the model
inlines `annuityRepayment?` there; `repaymentAmount_of_monthly` below
records the equation. -/
def repaymentAmount (s : Loan) : Option ℚ :=
  if s._calculateWeeklyAndFortnightlyRepaymentsBasedOnYearlyRepayments = false ∧
      (s._repaymentFrequency = .weekly ∨ s._repaymentFrequency = .fortnightly) then
    let monthly := (s.clone).setRepaymentFrequency .monthly
    if s._repaymentFrequency = .weekly then
      (monthly.annuityRepayment?).map (fun r => r / 4)
    else
      (monthly.annuityRepayment?).map (fun r => r / 2)
  else s.annuityRepayment?

end Loan

/-- The constants `_calculate` hoists before its loop (lines 531-539 of
the source): the repayment amount, the derived ARM quantities, the
effective interest-only count, the extra payment and the rounding width. -/
structure CalcCtx where
  repayment : ℚ
  variableRate : ℚ
  interestOnlyRepayments : ℚ
  adjustAfterRepayments : ℚ
  adjustmentPeriod : ℚ
  adjustmentPercentage : ℚ
  maxAdjustedRate : ℚ
  extraPayment : ℚ
  rounding : ℚ
deriving DecidableEq, Repr

/-- Rounding with the width of the hoisted context. -/
def CalcCtx.round (c : CalcCtx) (x : ℚ) : ℚ := jsRoundTo x c.rounding

/-- The ARM rate update at the top of a loop iteration of `_calculate`
(lines 542-551 of the source) applied to the working periodic rate. -/
def CalcCtx.armAdjustedRate (c : CalcCtx) (p : ℕ) (rate : ℚ) : ℚ :=
  if c.variableRate ≠ 0 ∧ c.adjustmentPercentage ≠ 0 ∧ c.maxAdjustedRate ≠ 0 then
    let r1 := if (p : ℚ) = c.adjustAfterRepayments then c.variableRate else rate
    if (p : ℚ) > c.adjustAfterRepayments ∧
        jsModZero (p : ℚ) c.adjustmentPeriod then
      min (r1 + c.adjustmentPercentage) c.maxAdjustedRate
    else r1
  else rate

/-- One row of the schedule loop, keeping the working rate used for the
period next to the emitted payment data. -/
structure SchedRow where
  rate : ℚ
  amount : ℚ
  principal : ℚ
  interest : ℚ
  balance : ℚ
deriving DecidableEq, Repr

/-- The loop of `_calculate` (lines 541-562): runs while the balance is
positive and fuel (the remaining period budget) is left; returns the
emitted rows and the final balance. -/
def CalcCtx.scheduleRows (c : CalcCtx) :
    ℕ → ℕ → ℚ → ℚ → List SchedRow × ℚ
  | _, 0, _, bal => ([], bal)
  | p, fuel + 1, rate, bal =>
    if 0 < bal then
      let rate1 := c.armAdjustedRate p rate
      let extra := if (p : ℚ) ≥ c.interestOnlyRepayments then c.extraPayment else 0
      let interest := c.round (rate1 * bal)
      let amount :=
        if (p : ℚ) ≥ c.interestOnlyRepayments then
          c.round (min (c.repayment + extra) (bal + interest))
        else interest
      let principal :=
        if (p : ℚ) ≥ c.interestOnlyRepayments then
          min (c.round (c.repayment - interest + extra)) bal
        else 0
      let bal1 := c.round (bal - principal)
      let rest := c.scheduleRows (p + 1) fuel rate1 bal1
      (⟨rate1, amount, principal, interest, bal1⟩ :: rest.1, rest.2)
    else ([], bal)

namespace Loan

/-- The hoisted constants of `_calculate` for a given state.  The source
assigns `const repayment = this.repaymentAmount`; when that value is not
finite (none) the JavaScript loop would propagate NaN, which the
rational model cannot represent: the model substitutes 0 there, and
every schedule theorem below assumes the repayment amount is finite (or
a loop that never reads it). -/
def calcCtx (s : Loan) : CalcCtx :=
  { repayment := (s.repaymentAmount).getD 0
    variableRate := s.armInitialVariableRate / 12 / 100
    interestOnlyRepayments := s.interestOnlyRepaymentCount
    adjustAfterRepayments := s.armFixedRateForRepaymentCount
    adjustmentPeriod := s.armRepaymentCountBetweenAdjustments
    adjustmentPercentage := s.armExpectedAdjustmentRate / 12 / 100
    maxAdjustedRate := s.armMaximumInterestRate / 12 / 100
    extraPayment := s.extraPayment
    rounding := s._rounding }

/-- The rows and final balance of the loop started from the initial
state of `_calculate`. -/
def scheduleResult (s : Loan) : List SchedRow × ℚ :=
  (s.calcCtx).scheduleRows 0 s.paymentsCountTotalNat
    s._calcInterestRateForPeriod s._amount

/-- The working periodic rate of each generated period, in order. -/
def rateTrace (s : Loan) : List ℚ := (s.scheduleResult).1.map (fun r => r.rate)

/-- The body of `_calculate` after the two early returns: build the
schedule, append the tail-correction payment when the remaining balance
exceeds one cent, store payments and totals, and mark the cache clean. -/
def runCalculate (s : Loan) : Loan :=
  let res := s.scheduleResult
  let pays := res.1.map (fun r => LoanPayment.mk r.amount r.principal r.interest r.balance)
  let pays :=
    if jsRoundTo res.2 2 > 1 / 100 then pays ++ [LoanPayment.mk res.2 res.2 0 0]
    else pays
  { s with _payments := pays,
           _totalCost := (pays.map (fun x => x.amount)).sum,
           _totalInterest := (pays.map (fun x => x.interest)).sum,
           _calculated := true }

/-- Private `_calculate`: return if the cache is clean; return (without
touching the stale cache fields) on degenerate input; otherwise compute. -/
def _calculate (s : Loan) : Loan :=
  if s._calculated = true then s
  else if s._amount = 0 ∨ s._termInMonths = 0 ∨ s._rate = 0 then s
  else s.runCalculate

/-- Getter `payments`: recompute if dirty, then read the cache. -/
def payments (s : Loan) : List LoanPayment := (s._calculate)._payments

/-- Getter `totalCost`. -/
def totalCost (s : Loan) : ℚ := (s._calculate)._totalCost

/-- Getter `totalInterest`. -/
def totalInterest (s : Loan) : ℚ := (s._calculate)._totalInterest

end Loan

attribute [local semireducible] Rat.mul Rat.add Rat.sub Rat.inv

set_option maxRecDepth 100000

/-! ## Concrete configurations used by the claim theorems -/

/-- 1200 over 24 months at 12 percent, monthly frequency. -/
def loanBase1 : Loan := ((Loan.new.setAmount 1200).setMonths 24).setInterestRate 12

/-- loanBase1 with a one-year interest-only period set through the years
representation. -/
def loanIoYears : Loan := loanBase1.setInterestOnlyYears 1

/-- loanBase1 with the equivalent interest-only period set through the
repayment-count representation. -/
def loanIoCount : Loan := loanBase1.setInterestOnlyRepaymentCount 12

/-- A one-cent loan over 6 months at 5 percent, yearly frequency: the
period budget is zero and the remaining cent is inside the tolerance. -/
def loanTinyAmount : Loan :=
  (((Loan.new.setAmount (1 / 100)).setMonths 6).setInterestRate 5).setRepaymentFrequency .yearly

/-- A computed 12-month loan whose amount is then zeroed: the cache is
stale and degenerate short-circuiting returns it unchanged. -/
def loanStaleDegenerate : Loan :=
  ((((Loan.new.setAmount 1000).setMonths 12).setInterestRate 12)._calculate).setAmount 0

/-- Fresh monthly configuration with interestOnlyRepaymentCount = 12. -/
def loanIo12Monthly : Loan := Loan.new.setInterestOnlyRepaymentCount 12

/-- loanIo12Monthly after switching the frequency to quarterly. -/
def loanIo12Quarterly : Loan := loanIo12Monthly.setRepaymentFrequency .quarterly

/-- ARM configuration whose initial variable rate (24) exceeds the
maximum rate (6), with a one-period fixed window. -/
def loanArmUncapped : Loan :=
  ((((((Loan.new.setAmount 1000).setMonths 24).setInterestRate 12).setArmInitialVariableRate
    24).setArmExpectedAdjustmentRate 1).setArmMaximumInterestRate 6).setArmFixedRateForRepaymentCount 1

/-- A 14-month term: years reads 1, but 14 is not a multiple of 12. -/
def loanMonths14 : Loan := Loan.new.setMonths 14

/-- A computed 12-month loan on 2000 whose amount is then zeroed. -/
def loanStaleClone : Loan :=
  ((((Loan.new.setAmount 2000).setMonths 12).setInterestRate 12)._calculate).setAmount 0

/-- An amount 4e-9 off the default rounding grid, one month at 12
percent, with an extra payment that triggers the balance cap. -/
def loanOffGrid : Loan :=
  (((Loan.new.setAmount (100 + 4 / (10 : ℚ) ^ 9)).setMonths 1).setInterestRate
    12).setExtraPayment 50

/-- 1000 over 12 months at 12 percent, monthly. -/
def loanPlain12 : Loan := ((Loan.new.setAmount 1000).setMonths 12).setInterestRate 12

/-- 5200 over 12 months at 12 percent, weekly frequency. -/
def loanWeekly : Loan :=
  (((Loan.new.setAmount 5200).setMonths 12).setInterestRate 12).setRepaymentFrequency .weekly

/-- A zero-rate loan with nonzero amount and term. -/
def loanZeroRate : Loan := (Loan.new.setAmount 1000).setMonths 12

/-- A loan whose interest-only repayment count equals its total payment
count. -/
def loanAllInterestOnly : Loan :=
  (((Loan.new.setAmount 1000).setMonths 12).setInterestRate 12).setInterestOnlyRepaymentCount 12

/-- A rational lying on the grid of multiples of `10 ^ (-z)`. -/
def OnGrid (z : ℤ) (q : ℚ) : Prop := ∃ m : ℤ, q = (m : ℚ) / 10 ^ z

/-- A digit count under which the epsilon bias cannot move a grid
point: an integer, small enough that `EPSILON * 10 ^ f < 1/2`. -/
def GoodRounding (f : ℚ) : Prop := f.den = 1 ∧ jsEpsilon * 10 ^ f.num < 1 / 2

/-- ARM configuration like loanArmUncapped but with the initial variable
rate (3) below the maximum rate (6). -/
def loanArmCapped : Loan :=
  ((((((Loan.new.setAmount 1000).setMonths 24).setInterestRate 12).setArmInitialVariableRate
    3).setArmExpectedAdjustmentRate 1).setArmMaximumInterestRate 6).setArmFixedRateForRepaymentCount 1

/-- 1500 over 12 months at 12 percent, monthly: a grid amount. -/
def loanGrid : Loan := ((Loan.new.setAmount 1500).setMonths 12).setInterestRate 12

/-! ## Claim theorems -/

/-- The recursive call of `repaymentAmount` on the monthly clone takes
the formula branch. -/
theorem Loan.repaymentAmount_of_monthly (s : Loan)
    (h : s._repaymentFrequency = .monthly) :
    s.repaymentAmount = s.annuityRepayment? := by
  unfold Loan.repaymentAmount
  rw [h]
  simp

/-- C1: the repayment-amount formula subtracts the raw stored
`_interestOnlyRepayments` field instead of the effective interest-only
count, so a one-year interest-only period set through `interestOnlyYears`
is ignored by `repaymentAmount` (it equals the no-interest-only amount)
while the equivalent `interestOnlyRepaymentCount = 12` changes it, even
though both configurations report the same effective count.  This
evaluates the code at the failing input of the code_bug verdict. -/
theorem loan_c1_repaymentAmount_ignores_interestOnlyYears :
    Loan.interestOnlyRepaymentCount loanIoYears = Loan.interestOnlyRepaymentCount loanIoCount ∧
    Loan.repaymentAmount loanIoYears = Loan.repaymentAmount loanBase1 ∧
    Loan.repaymentAmount loanIoYears ≠ Loan.repaymentAmount loanIoCount := by
  decide

/-- C2 counterexample: a configuration with nonzero amount, term and
rate (one cent over six months at 5 percent, yearly) whose schedule is
empty, refuting the claimed unconditional non-emptiness. -/
theorem loan_c2_nonempty_counterexample :
    loanTinyAmount._amount ≠ 0 ∧ loanTinyAmount._termInMonths ≠ 0 ∧
    loanTinyAmount._rate ≠ 0 ∧ Loan.payments loanTinyAmount = [] := by
  decide

/-- C3 (amended): on degenerate input (amount, term or rate zero)
`_calculate` returns without touching the state, so the derived reads
return the cached fields unchanged (empty schedule and zero totals on a
configuration that never computed a schedule, but stale values
otherwise), and no error is raised. -/
theorem loan_c3_degenerate_short_circuit (s : Loan)
    (h : s._amount = 0 ∨ s._termInMonths = 0 ∨ s._rate = 0) :
    s._calculate = s ∧ s.payments = s._payments ∧
    s.totalCost = s._totalCost ∧ s.totalInterest = s._totalInterest := by
  have hc : s._calculate = s := by
    unfold Loan._calculate
    by_cases hcal : s._calculated = true
    · simp [hcal]
    · simp [hcal, h]
  exact ⟨hc, by simp [Loan.payments, hc], by simp [Loan.totalCost, hc],
    by simp [Loan.totalInterest, hc]⟩

/-- C3 witness: the fresh configuration is degenerate and its reads give
the empty schedule and zero totals. -/
theorem loan_c3_degenerate_short_circuit_witness :
    (Loan.new._amount = 0 ∨ Loan.new._termInMonths = 0 ∨ Loan.new._rate = 0) ∧
    (Loan.new._calculate = Loan.new ∧ Loan.new.payments = Loan.new._payments ∧
      Loan.new.totalCost = Loan.new._totalCost ∧
      Loan.new.totalInterest = Loan.new._totalInterest) :=
  ⟨Or.inl rfl, loan_c3_degenerate_short_circuit Loan.new (Or.inl rfl)⟩

/-- C3 counterexample: a schedule computed with nonzero values survives
a setter that zeroes the amount; the degenerate read then returns the
stale non-empty schedule and nonzero totals, not the claimed empty
schedule and zero totals. -/
theorem loan_c3_stale_cache_counterexample :
    loanStaleDegenerate._amount = 0 ∧
    Loan.payments loanStaleDegenerate ≠ [] ∧
    Loan.totalCost loanStaleDegenerate ≠ 0 := by
  decide

/-- C4 (amended): setting `interestOnlyRepaymentCount = 12` under
monthly frequency makes `interestOnlyYears` read 1; switching the
frequency to quarterly leaves `interestOnlyRepaymentCount` reading the
stored 12 (the count stays the live representation) while
`interestOnlyYears` reads 3, consistent with the new frequency. -/
theorem loan_c4_override_pair_views :
    Loan.interestOnlyYears loanIo12Monthly = 1 ∧
    Loan.interestOnlyRepaymentCount loanIo12Quarterly = 12 ∧
    Loan.interestOnlyYears loanIo12Quarterly = 3 := by
  decide

/-- C4 counterexample: after the switch to quarterly the count reads 12,
not the claimed 4. -/
theorem loan_c4_count_after_frequency_counterexample :
    Loan.interestOnlyYears loanIo12Monthly = 1 ∧
    Loan.interestOnlyRepaymentCount loanIo12Quarterly ≠ 4 := by
  decide

/-- C7 (amended): every setter whose guard compares the incoming value
with its stored backing field is a no-op on equality — for `years` the
guard compares `termInMonths` with `y * 12`, so setting `years` to its
floored read value is only a no-op when the term is a multiple of 12 —
while the sub-monthly yearly-basis setter has no guard and always clears
the cached-schedule flag. -/
theorem loan_c7_setter_noop (s : Loan) :
    (∀ v, s._amount = v → s.setAmount v = s) ∧
    (∀ v, s._rate = v → s.setInterestRate v = s) ∧
    (∀ v, s._termInMonths = v → s.setMonths v = s) ∧
    (∀ v, s._termInMonths = v * 12 → s.setYears v = s) ∧
    (∀ v, s._repaymentFrequency = v → s.setRepaymentFrequency v = s) ∧
    (∀ v, s._extraPayment = v → s.setExtraPayment v = s) ∧
    (∀ v, s._interestOnlyRepayments = v → s.setInterestOnlyRepaymentCount v = s) ∧
    (∀ v, s._interestOnlyYears = v → s.setInterestOnlyYears v = s) ∧
    (∀ v, s._rounding = v → s.setRounding v = s) ∧
    (∀ v, s._armFixedRateForRepaymentCount = v → s.setArmFixedRateForRepaymentCount v = s) ∧
    (∀ v, s._armFixedRateForYears = v → s.setArmFixedRateForYears v = s) ∧
    (∀ v, s._armVariableRate = v → s.setArmInitialVariableRate v = s) ∧
    (∀ v, s._armRepaymentCountBetweenAdjustments = v →
      s.setArmRepaymentCountBetweenAdjustments v = s) ∧
    (∀ v, s._armMonthsBetweenAdjustments = v → s.setArmMonthsBetweenAdjustments v = s) ∧
    (∀ v, s._armExpectedAdjustmentRate = v → s.setArmExpectedAdjustmentRate v = s) ∧
    (∀ v, s._armMaximumInterestRate = v → s.setArmMaximumInterestRate v = s) ∧
    (∀ v, s.setCalculateWeeklyAndFortnightlyRepaymentsBasedOnYearlyRepayments v =
      { s with _calculateWeeklyAndFortnightlyRepaymentsBasedOnYearlyRepayments := v,
               _calculated := false }) := by
  refine ⟨fun v h => by simp [Loan.setAmount, h], fun v h => by simp [Loan.setInterestRate, h],
    fun v h => by simp [Loan.setMonths, h], fun v h => by simp [Loan.setYears, h],
    fun v h => by simp [Loan.setRepaymentFrequency, h],
    fun v h => by simp [Loan.setExtraPayment, h],
    fun v h => by simp [Loan.setInterestOnlyRepaymentCount, h],
    fun v h => by simp [Loan.setInterestOnlyYears, h],
    fun v h => by simp [Loan.setRounding, h],
    fun v h => by simp [Loan.setArmFixedRateForRepaymentCount, h],
    fun v h => by simp [Loan.setArmFixedRateForYears, h],
    fun v h => by simp [Loan.setArmInitialVariableRate, h],
    fun v h => by simp [Loan.setArmRepaymentCountBetweenAdjustments, h],
    fun v h => by simp [Loan.setArmMonthsBetweenAdjustments, h],
    fun v h => by simp [Loan.setArmExpectedAdjustmentRate, h],
    fun v h => by simp [Loan.setArmMaximumInterestRate, h],
    fun v => by
      simp [Loan.setCalculateWeeklyAndFortnightlyRepaymentsBasedOnYearlyRepayments]⟩

/-- C7 witness: re-assigning the stored amount of a fresh configuration
is a no-op. -/
theorem loan_c7_setter_noop_witness :
    Loan.new._amount = 0 ∧ Loan.new.setAmount 0 = Loan.new :=
  ⟨rfl, (loan_c7_setter_noop Loan.new).1 0 rfl⟩

/-- C7 counterexample: with a 14-month term, `years` reads 1, yet
assigning `years := 1` (its current read value) changes the observable
`months` from 14 to 12, refuting the claimed universal no-op. -/
theorem loan_c7_years_setter_counterexample :
    Loan.years loanMonths14 = 1 ∧
    Loan.months (loanMonths14.setYears (Loan.years loanMonths14)) ≠ Loan.months loanMonths14 := by
  decide

/-- C10: whenever the annual rate is zero (with nonzero amount and
term), or the stored interest-only repayment count equals the total
payment count (under a frequency that does not reroute through the
monthly clone), the annuity denominator `x - 1` is zero and the
unguarded division makes `repaymentAmount` a non-finite number (none in
the model); no error is raised. -/
theorem loan_c10_denominator_zero (s : Loan) (hamt : s._amount ≠ 0)
    (hcase :
      (s._rate = 0 ∧ s._termInMonths ≠ 0) ∨
      ((s._calculateWeeklyAndFortnightlyRepaymentsBasedOnYearlyRepayments = true ∨
          s._repaymentFrequency = .yearly ∨ s._repaymentFrequency = .quarterly ∨
          s._repaymentFrequency = .monthly) ∧
        s.paymentsCountTotal - s._interestOnlyRepayments = 0)) :
    s.repaymentAmount = none := by
  have hann : ∀ t : Loan, t._rate = 0 → t.annuityRepayment? = none := by
    intro t ht
    unfold Loan.annuityRepayment?
    simp only [ht]
    have hz : (0 : ℚ) / t.paymentsCountPerYear / 100 = 0 := by
      simp
    rw [hz]
    unfold jsPow?
    by_cases hd : (t.paymentsCountTotal - t._interestOnlyRepayments).den = 1
    · simp [hd]
    · simp [hd]
  rcases hcase with ⟨hr, _⟩ | ⟨hroute, hexp⟩
  · unfold Loan.repaymentAmount
    by_cases hb : s._calculateWeeklyAndFortnightlyRepaymentsBasedOnYearlyRepayments = false ∧
        (s._repaymentFrequency = .weekly ∨ s._repaymentFrequency = .fortnightly)
    · have hclone : ((s.clone).setRepaymentFrequency .monthly)._rate = 0 := by
        rcases hb with ⟨-, hf | hf⟩ <;>
          simp [Loan.clone, Loan.setRepaymentFrequency, hf, hr]
      rw [if_pos hb]
      rcases em (s._repaymentFrequency = .weekly) with hw | hw
      · rw [if_pos hw, hann _ hclone]; rfl
      · rw [if_neg hw, hann _ hclone]; rfl
    · rw [if_neg hb]
      exact hann s hr
  · have hbranch : ¬(s._calculateWeeklyAndFortnightlyRepaymentsBasedOnYearlyRepayments = false ∧
        (s._repaymentFrequency = .weekly ∨ s._repaymentFrequency = .fortnightly)) := by
      rcases hroute with hfl | hf | hf | hf
      · rintro ⟨hfl2, -⟩; rw [hfl] at hfl2; cases hfl2
      all_goals rintro ⟨-, hw | hw⟩ <;> rw [hf] at hw <;> cases hw
    unfold Loan.repaymentAmount
    rw [if_neg hbranch]
    unfold Loan.annuityRepayment?
    rw [hexp]
    unfold jsPow?
    norm_num

/-- C10 witness: the zero-rate loan and the fully-interest-only loan
both read a non-finite repayment amount. -/
theorem loan_c10_denominator_zero_witness :
    (loanZeroRate._amount ≠ 0 ∧ loanZeroRate._rate = 0 ∧ loanZeroRate._termInMonths ≠ 0 ∧
      Loan.repaymentAmount loanZeroRate = none) ∧
    (loanAllInterestOnly._amount ≠ 0 ∧
      loanAllInterestOnly.paymentsCountTotal - loanAllInterestOnly._interestOnlyRepayments = 0 ∧
      Loan.repaymentAmount loanAllInterestOnly = none) :=
  ⟨⟨by decide, by decide, by decide,
      loan_c10_denominator_zero loanZeroRate (by decide) (Or.inl ⟨by decide, by decide⟩)⟩,
    ⟨by decide, by decide,
      loan_c10_denominator_zero loanAllInterestOnly (by decide)
        (Or.inr ⟨Or.inr (Or.inr (Or.inr (by decide))), by decide⟩)⟩⟩

/-- C9 counterexample: with an amount 4e-9 off the default rounding
grid, the first (balance-capped) payment has amount 101 but principal
plus interest 101.000000004, refuting exact decomposition. -/
theorem loan_c9_offgrid_counterexample :
    (Loan.payments loanOffGrid).head? =
      some (LoanPayment.mk 101 (25000000001 / 250000000) 1 0) ∧
    (101 : ℚ) ≠ 25000000001 / 250000000 + 1 := by
  decide

/-- Helper for C5 and C8: the monthly reroute target of the weekly and
fortnightly branches only differs from a direct frequency change in the
cache fields, which the annuity formula never reads. -/
theorem annuity_clone_setFrequency (s : Loan)
    (hne : s._repaymentFrequency ≠ .monthly) :
    ((s.clone).setRepaymentFrequency .monthly).annuityRepayment? =
      (s.setRepaymentFrequency .monthly).annuityRepayment? := by
  unfold Loan.setRepaymentFrequency
  rw [show s.clone._repaymentFrequency = s._repaymentFrequency from rfl,
    if_neg hne, if_neg hne]
  rfl

/-- C5: with the yearly-basis flag off, the weekly repayment amount is
the repayment amount of the same configuration under monthly frequency
divided by 4, and the fortnightly one is the monthly amount divided
by 2. -/
theorem loan_c5_submonthly_from_monthly (s : Loan)
    (hflag : s._calculateWeeklyAndFortnightlyRepaymentsBasedOnYearlyRepayments = false) :
    (s._repaymentFrequency = .weekly →
      s.repaymentAmount =
        ((s.setRepaymentFrequency .monthly).repaymentAmount).map (fun r => r / 4)) ∧
    (s._repaymentFrequency = .fortnightly →
      s.repaymentAmount =
        ((s.setRepaymentFrequency .monthly).repaymentAmount).map (fun r => r / 2)) := by
  constructor
  · intro hf
    have hne : s._repaymentFrequency ≠ .monthly := by rw [hf]; exact fun h => nomatch h
    have hmonthly : (s.setRepaymentFrequency .monthly)._repaymentFrequency = .monthly := by
      unfold Loan.setRepaymentFrequency
      rw [if_neg hne]
    have h2 := Loan.repaymentAmount_of_monthly _ hmonthly
    have h1 : s.repaymentAmount =
        (((s.clone).setRepaymentFrequency .monthly).annuityRepayment?).map (fun r => r / 4) := by
      unfold Loan.repaymentAmount
      rw [if_pos ⟨hflag, Or.inl hf⟩, if_pos hf]
    rw [h1, h2, annuity_clone_setFrequency s hne]
  · intro hf
    have hne : s._repaymentFrequency ≠ .monthly := by rw [hf]; exact fun h => nomatch h
    have hnw : s._repaymentFrequency ≠ .weekly := by rw [hf]; exact fun h => nomatch h
    have hmonthly : (s.setRepaymentFrequency .monthly)._repaymentFrequency = .monthly := by
      unfold Loan.setRepaymentFrequency
      rw [if_neg hne]
    have h2 := Loan.repaymentAmount_of_monthly _ hmonthly
    have h1 : s.repaymentAmount =
        (((s.clone).setRepaymentFrequency .monthly).annuityRepayment?).map (fun r => r / 2) := by
      unfold Loan.repaymentAmount
      rw [if_pos ⟨hflag, Or.inr hf⟩, if_neg hnw]
    rw [h1, h2, annuity_clone_setFrequency s hne]

/-- C5 witness: the concrete weekly loan satisfies the relation. -/
theorem loan_c5_submonthly_from_monthly_witness :
    loanWeekly._calculateWeeklyAndFortnightlyRepaymentsBasedOnYearlyRepayments = false ∧
    loanWeekly._repaymentFrequency = .weekly ∧
    Loan.repaymentAmount loanWeekly =
      ((loanWeekly.setRepaymentFrequency .monthly).repaymentAmount).map (fun r => r / 4) :=
  ⟨rfl, rfl, (loan_c5_submonthly_from_monthly loanWeekly rfl).1 rfl⟩

/-- C8 (amended): when the source configuration has a dirty cache and is
non-degenerate, every derived property of the clone equals the
source's; mutation independence is by construction, the clone sharing no
mutable state with the source in the value model. -/
theorem loan_c8_clone_derived_equal (s : Loan) (hcal : s._calculated = false)
    (h1 : s._amount ≠ 0) (h2 : s._termInMonths ≠ 0) (h3 : s._rate ≠ 0) :
    s.clone.payments = s.payments ∧
    s.clone.totalCost = s.totalCost ∧
    s.clone.totalInterest = s.totalInterest ∧
    s.clone.repaymentAmount = s.repaymentAmount ∧
    s.clone.paymentsCountPerYear = s.paymentsCountPerYear ∧
    s.clone.paymentsCountTotal = s.paymentsCountTotal := by
  have hnd : ¬(s._amount = 0 ∨ s._termInMonths = 0 ∨ s._rate = 0) := by
    simp [h1, h2, h3]
  have hs : s._calculate = s.runCalculate := by
    unfold Loan._calculate
    rw [if_neg (by simp [hcal]), if_neg hnd]
  have hc : (s.clone)._calculate = (s.clone).runCalculate := by
    unfold Loan._calculate
    rw [if_neg (by simp [Loan.clone]), if_neg (by exact hnd)]
  refine ⟨?_, ?_, ?_, rfl, rfl, rfl⟩
  · show (s.clone._calculate)._payments = (s._calculate)._payments
    rw [hs, hc]; rfl
  · show (s.clone._calculate)._totalCost = (s._calculate)._totalCost
    rw [hs, hc]; rfl
  · show (s.clone._calculate)._totalInterest = (s._calculate)._totalInterest
    rw [hs, hc]; rfl

/-- C8 witness: the relation holds on the concrete plain loan. -/
theorem loan_c8_clone_derived_equal_witness :
    (loanPlain12._calculated = false ∧ loanPlain12._amount ≠ 0 ∧
      loanPlain12._termInMonths ≠ 0 ∧ loanPlain12._rate ≠ 0) ∧
    (loanPlain12.clone.payments = loanPlain12.payments ∧
      loanPlain12.clone.totalCost = loanPlain12.totalCost ∧
      loanPlain12.clone.totalInterest = loanPlain12.totalInterest ∧
      loanPlain12.clone.repaymentAmount = loanPlain12.repaymentAmount ∧
      loanPlain12.clone.paymentsCountPerYear = loanPlain12.paymentsCountPerYear ∧
      loanPlain12.clone.paymentsCountTotal = loanPlain12.paymentsCountTotal) :=
  ⟨⟨rfl, by decide, by decide, by decide⟩,
    loan_c8_clone_derived_equal loanPlain12 rfl (by decide) (by decide) (by decide)⟩

/-- C8 counterexample: a computed schedule made degenerate by zeroing
the amount keeps its stale cache, and the clone (whose cache starts
clean) disagrees with the source on the derived `payments` at clone
time, refuting the unconditional claim. -/
theorem loan_c8_stale_clone_counterexample :
    Loan.payments (loanStaleClone.clone) ≠ Loan.payments loanStaleClone := by
  decide

/-! ## Loop lemmas for the schedule shape -/

/-- Unfolding equation: zero fuel. -/
theorem CalcCtx.scheduleRows_zero (c : CalcCtx) (p : ℕ) (rate bal : ℚ) :
    c.scheduleRows p 0 rate bal = ([], bal) := rfl

/-- Unfolding equation: non-positive balance stops the loop. -/
theorem CalcCtx.scheduleRows_nonpos (c : CalcCtx) (p n : ℕ) (rate bal : ℚ)
    (hb : ¬ 0 < bal) : c.scheduleRows p (n + 1) rate bal = ([], bal) := by
  rw [CalcCtx.scheduleRows]
  rw [if_neg hb]

/-- One-step specification of the loop with positive balance: a row is
emitted whose components satisfy the interest-only or amortizing
equations of the source, and the loop continues from its balance with
its rate. -/
theorem CalcCtx.scheduleRows_succ_pos (c : CalcCtx) (p n : ℕ) (rate bal : ℚ)
    (hb : 0 < bal) :
    ∃ row : SchedRow,
      c.scheduleRows p (n + 1) rate bal =
        (row :: (c.scheduleRows (p + 1) n row.rate row.balance).1,
          (c.scheduleRows (p + 1) n row.rate row.balance).2) ∧
      row.rate = c.armAdjustedRate p rate ∧
      row.interest = c.round (row.rate * bal) ∧
      ((((p : ℚ) ≥ c.interestOnlyRepayments) ∧
          row.amount = c.round (min (c.repayment + c.extraPayment) (bal + row.interest)) ∧
          row.principal = min (c.round (c.repayment - row.interest + c.extraPayment)) bal) ∨
        ((¬ ((p : ℚ) ≥ c.interestOnlyRepayments)) ∧
          row.amount = row.interest ∧ row.principal = 0)) ∧
      row.balance = c.round (bal - row.principal) := by
  rw [CalcCtx.scheduleRows]
  rw [if_pos hb]
  by_cases hioc : (p : ℚ) ≥ c.interestOnlyRepayments
  · simp only [if_pos hioc]
    refine ⟨_, rfl, ?_, ?_, ?_, ?_⟩
    · rfl
    · rfl
    · exact Or.inl ⟨hioc, rfl, rfl⟩
    · rfl
  · simp only [if_neg hioc]
    refine ⟨_, rfl, ?_, ?_, ?_, ?_⟩
    · rfl
    · rfl
    · exact Or.inr ⟨hioc, rfl, rfl⟩
    · rfl

/-- An empty loop output leaves the balance unchanged. -/
theorem CalcCtx.scheduleRows_nil_snd (c : CalcCtx) :
    ∀ fuel p rate bal, (c.scheduleRows p fuel rate bal).1 = [] →
      (c.scheduleRows p fuel rate bal).2 = bal := by
  intro fuel p rate bal h
  cases fuel with
  | zero => rfl
  | succ n =>
    by_cases hb : 0 < bal
    · obtain ⟨row, heq, -⟩ := c.scheduleRows_succ_pos p n rate bal hb
      rw [heq] at h
      exact absurd h (List.cons_ne_nil _ _)
    · rw [c.scheduleRows_nonpos p n rate bal hb]

/-- A nonempty loop output starts from a positive balance. -/
theorem CalcCtx.scheduleRows_ne_nil_pos (c : CalcCtx) :
    ∀ fuel p rate bal, (c.scheduleRows p fuel rate bal).1 ≠ [] → 0 < bal := by
  intro fuel p rate bal h
  cases fuel with
  | zero => exact absurd rfl h
  | succ n =>
    by_cases hb : 0 < bal
    · exact hb
    · rw [c.scheduleRows_nonpos p n rate bal hb] at h
      exact absurd rfl h

/-- With positive balance and remaining fuel the loop emits a row. -/
theorem CalcCtx.scheduleRows_ne_nil (c : CalcCtx) (fuel p : ℕ) (rate bal : ℚ)
    (hb : 0 < bal) (hf : fuel ≠ 0) :
    (c.scheduleRows p fuel rate bal).1 ≠ [] := by
  cases fuel with
  | zero => exact absurd rfl hf
  | succ n =>
    obtain ⟨row, heq, -⟩ := c.scheduleRows_succ_pos p n rate bal hb
    rw [heq]
    exact List.cons_ne_nil _ _

/-- The final balance is the balance of the last emitted row. -/
theorem CalcCtx.scheduleRows_getLast (c : CalcCtx) :
    ∀ fuel p rate bal row, ((c.scheduleRows p fuel rate bal).1).getLast? = some row →
      row.balance = (c.scheduleRows p fuel rate bal).2 := by
  intro fuel
  induction fuel with
  | zero =>
    intro p rate bal row h
    rw [c.scheduleRows_zero] at h
    exact absurd h (by simp)
  | succ n ih =>
    intro p rate bal row h
    by_cases hb : 0 < bal
    · obtain ⟨r0, heq, -⟩ := c.scheduleRows_succ_pos p n rate bal hb
      rw [heq] at h ⊢
      rcases hrest : (c.scheduleRows (p + 1) n r0.rate r0.balance).1 with _ | ⟨x, xs⟩
      · rw [hrest] at h
        simp only [List.getLast?_singleton, Option.some_inj] at h
        rw [← h]
        exact (c.scheduleRows_nil_snd n (p + 1) r0.rate r0.balance hrest).symm
      · rw [hrest, List.getLast?_cons_cons] at h
        exact ih (p + 1) r0.rate r0.balance row (by rw [hrest]; exact h)
    · rw [c.scheduleRows_nonpos p n rate bal hb] at h
      exact absurd h (by simp)

/-- Every emitted row other than the last has a positive balance (the
loop continued past it). -/
theorem CalcCtx.scheduleRows_mid_pos (c : CalcCtx) :
    ∀ fuel p rate bal i row, ((c.scheduleRows p fuel rate bal).1)[i]? = some row →
      i + 1 < ((c.scheduleRows p fuel rate bal).1).length → 0 < row.balance := by
  intro fuel
  induction fuel with
  | zero =>
    intro p rate bal i row h
    rw [c.scheduleRows_zero] at h
    exact absurd h (by simp)
  | succ n ih =>
    intro p rate bal i row h hlen
    by_cases hb : 0 < bal
    · obtain ⟨r0, heq, -⟩ := c.scheduleRows_succ_pos p n rate bal hb
      rw [heq] at h hlen
      cases i with
      | zero =>
        simp only [List.getElem?_cons_zero, Option.some_inj] at h
        simp only [List.length_cons, Nat.lt_add_one_iff] at hlen
        have hne : (c.scheduleRows (p + 1) n r0.rate r0.balance).1 ≠ [] := by
          intro hnil
          rw [hnil] at hlen
          simp at hlen
        rw [← h]
        exact c.scheduleRows_ne_nil_pos n (p + 1) r0.rate r0.balance hne
      | succ j =>
        simp only [List.getElem?_cons_succ] at h
        simp only [List.length_cons] at hlen
        exact ih (p + 1) r0.rate r0.balance j row h (by omega)
    · rw [c.scheduleRows_nonpos p n rate bal hb] at h
      exact absurd h (by simp)

/-- Rounding zero to two digits gives zero. -/
theorem jsRoundTo_zero_two : jsRoundTo 0 2 = 0 := by
  unfold jsRoundTo jsEpsilon
  norm_num

/-- A balance whose two-digit rounding exceeds one cent is positive. -/
theorem pos_of_jsRoundTwo (b : ℚ) (h : 1 / 100 < jsRoundTo b 2) : 0 < b := by
  unfold jsRoundTo at h
  rw [if_pos (by norm_num)] at h
  rw [show ((2 : ℚ).num) = 2 from by norm_num] at h
  rw [show ((10 : ℚ) ^ (2 : ℤ)) = 100 from by norm_num] at h
  rw [div_lt_div_iff₀ (by norm_num) (by norm_num)] at h
  have h2 : (1 : ℤ) < ⌊(b + jsEpsilon) * 100 + 1 / 2⌋ := by
    have : (1 : ℚ) < (⌊(b + jsEpsilon) * 100 + 1 / 2⌋ : ℚ) := by linarith
    exact_mod_cast this
  have h3 : (2 : ℚ) ≤ (b + jsEpsilon) * 100 + 1 / 2 := by
    have h4 : (2 : ℤ) ≤ ⌊(b + jsEpsilon) * 100 + 1 / 2⌋ := by omega
    exact_mod_cast Int.le_floor.mp h4
  have he : jsEpsilon = 1 / 2 ^ 52 := rfl
  rw [he] at h3
  nlinarith

/-- When the cache is dirty and the input is non-degenerate, reading a
derived property runs the schedule computation. -/
theorem Loan.calculate_of_dirty (s : Loan) (hcal : s._calculated = false)
    (h1 : s._amount ≠ 0) (h2 : s._termInMonths ≠ 0) (h3 : s._rate ≠ 0) :
    s._calculate = s.runCalculate := by
  unfold Loan._calculate
  rw [if_neg (by simp [hcal]), if_neg (by simp [h1, h2, h3])]

/-- The schedule stored by `runCalculate`: the mapped loop rows, plus
the tail-correction payment when the final balance exceeds one cent. -/
theorem Loan.runCalculate_payments (s : Loan) :
    (s.runCalculate)._payments =
      (if 1 / 100 < jsRoundTo (s.scheduleResult).2 2 then
        ((s.scheduleResult).1.map
          (fun r => LoanPayment.mk r.amount r.principal r.interest r.balance))
          ++ [LoanPayment.mk (s.scheduleResult).2 (s.scheduleResult).2 0 0]
      else
        (s.scheduleResult).1.map
          (fun r => LoanPayment.mk r.amount r.principal r.interest r.balance)) := rfl

/-- C2 (amended): for a dirty non-degenerate configuration whose
repayment amount is finite, (i) the schedule is non-empty provided the
amount itself exceeds the one-cent tolerance (unconditional
non-emptiness fails, see the counterexample), (ii) the last payment
ends within the one-cent tolerance of zero balance, and (iii) every
payment before the last — in particular the second-to-last when it
exists — has a strictly positive balance. -/
theorem loan_c2_schedule_shape (s : Loan)
    (hcal : s._calculated = false) (h1 : s._amount ≠ 0) (h2 : s._termInMonths ≠ 0)
    (h3 : s._rate ≠ 0) (hfin : s.repaymentAmount ≠ none) :
    (1 / 100 < jsRoundTo s._amount 2 → s.payments ≠ []) ∧
    (∀ x, (s.payments).getLast? = some x → jsRoundTo x.balance 2 ≤ 1 / 100) ∧
    (∀ i x, (s.payments)[i]? = some x → i + 1 < (s.payments).length → 0 < x.balance) := by
  clear hfin
  have hpay : s.payments = (s.runCalculate)._payments := by
    unfold Loan.payments
    rw [Loan.calculate_of_dirty s hcal h1 h2 h3]
  have hsched : s.scheduleResult =
      (s.calcCtx).scheduleRows 0 s.paymentsCountTotalNat
        s._calcInterestRateForPeriod s._amount := rfl
  rw [hpay, Loan.runCalculate_payments, hsched]
  set c := s.calcCtx with hc
  set N := s.paymentsCountTotalNat with hN
  set r0 := s._calcInterestRateForPeriod with hr0
  set a0 := s._amount with ha0
  set res := c.scheduleRows 0 N r0 a0 with hresdef
  refine ⟨?_, ?_, ?_⟩
  · intro hgt
    by_cases htail : 1 / 100 < jsRoundTo res.2 2
    · rw [if_pos htail]
      intro hn
      exact absurd hn (by simp)
    · rw [if_neg htail]
      intro hn
      have hrnil : res.1 = [] := by
        rcases hr : res.1 with _ | ⟨y, ys⟩
        · rfl
        · rw [hr] at hn
          simp at hn
      have hfbeq : res.2 = a0 := c.scheduleRows_nil_snd N 0 r0 a0 hrnil
      rw [hfbeq] at htail
      exact htail hgt
  · intro x hx
    by_cases htail : 1 / 100 < jsRoundTo res.2 2
    · rw [if_pos htail, List.getLast?_concat, Option.some_inj] at hx
      rw [← hx]
      rw [jsRoundTo_zero_two]
      norm_num
    · rw [if_neg htail, List.getLast?_eq_getElem?, List.getElem?_map,
        List.length_map] at hx
      rcases Option.map_eq_some'.mp hx with ⟨row, hrow, hxr⟩
      have hlast : (res.1).getLast? = some row := by
        rw [List.getLast?_eq_getElem?]
        exact hrow
      have hbal : row.balance = res.2 := c.scheduleRows_getLast N 0 r0 a0 row hlast
      rw [← hxr]
      show jsRoundTo row.balance 2 ≤ 1 / 100
      rw [hbal]
      exact le_of_not_lt htail
  · intro i x hx hlen
    by_cases htail : 1 / 100 < jsRoundTo res.2 2
    · rw [if_pos htail] at hx hlen
      rw [List.length_append, List.length_map, List.length_singleton] at hlen
      have hi : i < (res.1).length := by omega
      rw [List.getElem?_append] at hx
      rw [if_pos (by rw [List.length_map]; exact hi)] at hx
      rw [List.getElem?_map] at hx
      rcases Option.map_eq_some'.mp hx with ⟨row, hrow, hxr⟩
      rcases Nat.lt_or_ge (i + 1) (res.1).length with hmid | hend
      · rw [← hxr]
        exact c.scheduleRows_mid_pos N 0 r0 a0 i row hrow hmid
      · have hieq : i = (res.1).length - 1 := by omega
        have hlast : (res.1).getLast? = some row := by
          rw [List.getLast?_eq_getElem?, ← hieq]
          exact hrow
        have hbal : row.balance = res.2 := c.scheduleRows_getLast N 0 r0 a0 row hlast
        rw [← hxr]
        show 0 < row.balance
        rw [hbal]
        exact pos_of_jsRoundTwo _ htail
    · rw [if_neg htail] at hx hlen
      rw [List.length_map] at hlen
      rw [List.getElem?_map] at hx
      rcases Option.map_eq_some'.mp hx with ⟨row, hrow, hxr⟩
      rw [← hxr]
      exact c.scheduleRows_mid_pos N 0 r0 a0 i row hrow hlen

/-- C2 witness: the plain 12-month loan has a non-empty schedule, its
last payment balance rounds to at most one cent, and all earlier
balances are positive. -/
theorem loan_c2_schedule_shape_witness :
    (loanPlain12._calculated = false ∧ loanPlain12._amount ≠ 0 ∧
      loanPlain12._termInMonths ≠ 0 ∧ loanPlain12._rate ≠ 0 ∧
      Loan.repaymentAmount loanPlain12 ≠ none ∧
      1 / 100 < jsRoundTo loanPlain12._amount 2) ∧
    Loan.payments loanPlain12 ≠ [] :=
  ⟨⟨rfl, by decide, by decide, by decide, by decide, by decide⟩,
    (loan_c2_schedule_shape loanPlain12 rfl (by decide) (by decide) (by decide)
      (by decide)).1 (by decide)⟩

/-! ## ARM rate lemmas -/

/-- From the fixed count on, the adjusted rate never exceeds the cap,
provided the initial variable rate is within it. -/
theorem CalcCtx.armAdjustedRate_le_max (c : CalcCtx) (k : ℕ)
    (hk : c.adjustAfterRepayments = (k : ℚ))
    (hdo : c.variableRate ≠ 0 ∧ c.adjustmentPercentage ≠ 0 ∧ c.maxAdjustedRate ≠ 0)
    (hcap : c.variableRate ≤ c.maxAdjustedRate)
    (p : ℕ) (rate : ℚ) (hp : k ≤ p) (hrate : k < p → rate ≤ c.maxAdjustedRate) :
    c.armAdjustedRate p rate ≤ c.maxAdjustedRate := by
  unfold CalcCtx.armAdjustedRate
  rw [if_pos hdo, hk]
  rcases eq_or_lt_of_le hp with heq | hlt
  · subst heq
    have h1 : ((k : ℚ) = (k : ℚ)) := rfl
    rw [if_pos h1]
    have h2 : ¬((k : ℚ) > (k : ℚ) ∧ jsModZero (k : ℚ) c.adjustmentPeriod) :=
      fun h => absurd h.1 (lt_irrefl _)
    rw [if_neg h2]
    exact hcap
  · have h1 : ¬((p : ℚ) = (k : ℚ)) := by
      simp only [Nat.cast_inj]
      omega
    rw [if_neg h1]
    split_ifs with h2
    · exact min_le_right _ _
    · exact hrate hlt

/-- Past the fixed count, an adjustment with positive step never
decreases a rate that is within the cap. -/
theorem CalcCtx.le_armAdjustedRate (c : CalcCtx) (k : ℕ)
    (hk : c.adjustAfterRepayments = (k : ℚ))
    (hdo : c.variableRate ≠ 0 ∧ c.adjustmentPercentage ≠ 0 ∧ c.maxAdjustedRate ≠ 0)
    (hstep : 0 < c.adjustmentPercentage)
    (p : ℕ) (rate : ℚ) (hp : k < p) (hrate : rate ≤ c.maxAdjustedRate) :
    rate ≤ c.armAdjustedRate p rate := by
  unfold CalcCtx.armAdjustedRate
  rw [if_pos hdo, hk]
  have hne : ¬((p : ℚ) = (k : ℚ)) := by
    simp only [Nat.cast_inj]
    omega
  rw [if_neg hne]
  split_ifs with h2
  · exact le_min (by linarith) hrate
  · exact le_refl _

/-- The first emitted row carries the adjusted rate of its period. -/
theorem CalcCtx.scheduleRows_head_rate (c : CalcCtx) (fuel p : ℕ) (rate bal : ℚ)
    (row : SchedRow) (h : ((c.scheduleRows p fuel rate bal).1).head? = some row) :
    row.rate = c.armAdjustedRate p rate := by
  cases fuel with
  | zero =>
    rw [c.scheduleRows_zero] at h
    exact absurd h (by simp)
  | succ n =>
    by_cases hb : 0 < bal
    · obtain ⟨r0, heq, hrate, -⟩ := c.scheduleRows_succ_pos p n rate bal hb
      rw [heq] at h
      simp only [List.head?_cons, Option.some_inj] at h
      rw [← h]
      exact hrate
    · rw [c.scheduleRows_nonpos p n rate bal hb] at h
      exact absurd h (by simp)

/-- Every row at a period at or past the fixed count has a rate within
the cap, provided the carried rate already satisfies the invariant. -/
theorem CalcCtx.scheduleRows_rate_cap (c : CalcCtx) (k : ℕ)
    (hk : c.adjustAfterRepayments = (k : ℚ))
    (hdo : c.variableRate ≠ 0 ∧ c.adjustmentPercentage ≠ 0 ∧ c.maxAdjustedRate ≠ 0)
    (hcap : c.variableRate ≤ c.maxAdjustedRate) :
    ∀ fuel p rate bal i row, (k < p → rate ≤ c.maxAdjustedRate) →
      ((c.scheduleRows p fuel rate bal).1)[i]? = some row → k ≤ p + i →
      row.rate ≤ c.maxAdjustedRate := by
  intro fuel
  induction fuel with
  | zero =>
    intro p rate bal i row hinv h hki
    rw [c.scheduleRows_zero] at h
    exact absurd h (by simp)
  | succ n ih =>
    intro p rate bal i row hinv h hki
    by_cases hb : 0 < bal
    · obtain ⟨r0, heq, hrate, -⟩ := c.scheduleRows_succ_pos p n rate bal hb
      rw [heq] at h
      cases i with
      | zero =>
        simp only [List.getElem?_cons_zero, Option.some_inj] at h
        rw [← h, hrate]
        exact c.armAdjustedRate_le_max k hk hdo hcap p rate (by omega) hinv
      | succ j =>
        simp only [List.getElem?_cons_succ] at h
        refine ih (p + 1) r0.rate r0.balance j row ?_ h (by omega)
        intro _
        rw [hrate]
        exact c.armAdjustedRate_le_max k hk hdo hcap p rate (by omega) hinv
    · rw [c.scheduleRows_nonpos p n rate bal hb] at h
      exact absurd h (by simp)

/-- From the fixed count on, consecutive working rates are
non-decreasing. -/
theorem CalcCtx.scheduleRows_rate_mono (c : CalcCtx) (k : ℕ)
    (hk : c.adjustAfterRepayments = (k : ℚ))
    (hdo : c.variableRate ≠ 0 ∧ c.adjustmentPercentage ≠ 0 ∧ c.maxAdjustedRate ≠ 0)
    (hstep : 0 < c.adjustmentPercentage)
    (hcap : c.variableRate ≤ c.maxAdjustedRate) :
    ∀ fuel p rate bal i row1 row2, (k < p → rate ≤ c.maxAdjustedRate) →
      ((c.scheduleRows p fuel rate bal).1)[i]? = some row1 →
      ((c.scheduleRows p fuel rate bal).1)[i + 1]? = some row2 →
      k ≤ p + i → row1.rate ≤ row2.rate := by
  intro fuel
  induction fuel with
  | zero =>
    intro p rate bal i row1 row2 hinv h1 h2 hki
    rw [c.scheduleRows_zero] at h1
    exact absurd h1 (by simp)
  | succ n ih =>
    intro p rate bal i row1 row2 hinv h1 h2 hki
    by_cases hb : 0 < bal
    · obtain ⟨r0, heq, hrate, -⟩ := c.scheduleRows_succ_pos p n rate bal hb
      rw [heq] at h1 h2
      cases i with
      | zero =>
        simp only [List.getElem?_cons_zero, Option.some_inj] at h1
        simp only [List.getElem?_cons_succ] at h2
        have hhead : ((c.scheduleRows (p + 1) n r0.rate r0.balance).1).head? = some row2 := by
          rw [List.head?_eq_getElem?]
          exact h2
        have hrow2 := c.scheduleRows_head_rate n (p + 1) r0.rate r0.balance row2 hhead
        have hr0max : r0.rate ≤ c.maxAdjustedRate := by
          rw [hrate]
          exact c.armAdjustedRate_le_max k hk hdo hcap p rate (by omega) hinv
        rw [← h1, hrow2]
        exact c.le_armAdjustedRate k hk hdo hstep (p + 1) r0.rate (by omega) hr0max
      | succ j =>
        simp only [List.getElem?_cons_succ] at h1 h2
        refine ih (p + 1) r0.rate r0.balance j row1 row2 ?_ h1 h2 (by omega)
        intro _
        rw [hrate]
        exact c.armAdjustedRate_le_max k hk hdo hcap p rate (by omega) hinv
    · rw [c.scheduleRows_nonpos p n rate bal hb] at h1
      exact absurd h1 (by simp)

/-- C6 (amended): with ARM active, a natural-number effective fixed
count, a positive adjustment step and an initial variable rate within
the cap, every working rate from the fixed count onward stays at or
below armMaximumInterestRate/12/100 and consecutive working rates are
non-decreasing.  The claim as stated, without the last two hypotheses,
is refuted by the counterexample: the switch to the initial variable
rate is not clamped. -/
theorem loan_c6_arm_rates_monotone_capped (s : Loan) (k : ℕ)
    (hvr : s._armVariableRate ≠ 0)
    (hstep : 0 < s._armExpectedAdjustmentRate)
    (hmax : s._armMaximumInterestRate ≠ 0)
    (hcap : s._armVariableRate ≤ s._armMaximumInterestRate)
    (hk : s.armFixedRateForRepaymentCount = (k : ℚ)) :
    ∀ i ri, (s.rateTrace)[i]? = some ri → k ≤ i →
      ri ≤ s._armMaximumInterestRate / 12 / 100 ∧
      ∀ rj, (s.rateTrace)[i + 1]? = some rj → ri ≤ rj := by
  intro i ri hi hki
  have hkc : (s.calcCtx).adjustAfterRepayments = (k : ℚ) := by
    show s.armFixedRateForRepaymentCount = (k : ℚ)
    exact hk
  have hvr2 : (s.calcCtx).variableRate ≠ 0 := by
    show s._armVariableRate / 12 / 100 ≠ 0
    intro h
    rcases div_eq_zero_iff.mp h with h1 | h1
    · rcases div_eq_zero_iff.mp h1 with h2 | h2
      · exact hvr h2
      · norm_num at h2
    · norm_num at h1
  have hstep2 : 0 < (s.calcCtx).adjustmentPercentage := by
    show 0 < s._armExpectedAdjustmentRate / 12 / 100
    positivity
  have hmax2 : (s.calcCtx).maxAdjustedRate ≠ 0 := by
    show s._armMaximumInterestRate / 12 / 100 ≠ 0
    intro h
    rcases div_eq_zero_iff.mp h with h1 | h1
    · rcases div_eq_zero_iff.mp h1 with h2 | h2
      · exact hmax h2
      · norm_num at h2
    · norm_num at h1
  have hcap2 : (s.calcCtx).variableRate ≤ (s.calcCtx).maxAdjustedRate := by
    show s._armVariableRate / 12 / 100 ≤ s._armMaximumInterestRate / 12 / 100
    gcongr
  have hdo : (s.calcCtx).variableRate ≠ 0 ∧ (s.calcCtx).adjustmentPercentage ≠ 0 ∧
      (s.calcCtx).maxAdjustedRate ≠ 0 := ⟨hvr2, ne_of_gt hstep2, hmax2⟩
  have htr : s.rateTrace =
      (((s.calcCtx).scheduleRows 0 s.paymentsCountTotalNat
        s._calcInterestRateForPeriod s._amount).1).map (fun r => r.rate) := rfl
  rw [htr, List.getElem?_map] at hi
  rcases Option.map_eq_some'.mp hi with ⟨row, hrow, hri⟩
  constructor
  · have := (s.calcCtx).scheduleRows_rate_cap k hkc hdo hcap2
      s.paymentsCountTotalNat 0 s._calcInterestRateForPeriod s._amount i row
      (fun h => absurd h (Nat.not_lt_zero k)) hrow (by omega)
    rw [← hri]
    exact this
  · intro rj hj
    rw [htr, List.getElem?_map] at hj
    rcases Option.map_eq_some'.mp hj with ⟨row2, hrow2, hrj⟩
    have := (s.calcCtx).scheduleRows_rate_mono k hkc hdo hstep2 hcap2
      s.paymentsCountTotalNat 0 s._calcInterestRateForPeriod s._amount i row row2
      (fun h => absurd h (Nat.not_lt_zero k)) hrow hrow2 (by omega)
    rw [← hri, ← hrj]
    exact this

/-- C6 witness: the capped ARM configuration satisfies the hypotheses,
and its working rates from period 1 onward are capped and
non-decreasing. -/
theorem loan_c6_arm_rates_monotone_capped_witness :
    (loanArmCapped._armVariableRate ≠ 0 ∧ 0 < loanArmCapped._armExpectedAdjustmentRate ∧
      loanArmCapped._armMaximumInterestRate ≠ 0 ∧
      loanArmCapped._armVariableRate ≤ loanArmCapped._armMaximumInterestRate ∧
      Loan.armFixedRateForRepaymentCount loanArmCapped = ((1 : ℕ) : ℚ)) ∧
    (∀ i ri, (Loan.rateTrace loanArmCapped)[i]? = some ri → 1 ≤ i →
      ri ≤ loanArmCapped._armMaximumInterestRate / 12 / 100 ∧
      ∀ rj, (Loan.rateTrace loanArmCapped)[i + 1]? = some rj → ri ≤ rj) :=
  ⟨⟨by decide, by decide, by decide, by decide, by decide⟩,
    loan_c6_arm_rates_monotone_capped loanArmCapped 1 (by decide) (by decide) (by decide)
      (by decide) (by decide)⟩

/-- C6 counterexample: with the initial variable rate above the
maximum (24 against 6), the working rate right after the one-period
fixed window is 1/50, above the claimed cap 6/1200 = 1/200, and the
rate sequence later falls back to the cap (1/50 at period 11 down to
1/200 at period 12), refuting both the cap and the claimed
monotonicity. -/
theorem loan_c6_uncapped_rate_counterexample :
    Loan.armFixedRateForRepaymentCount loanArmUncapped = 1 ∧
    (Loan.rateTrace loanArmUncapped)[1]? = some (1 / 50) ∧
    (Loan.rateTrace loanArmUncapped)[11]? = some (1 / 50) ∧
    (Loan.rateTrace loanArmUncapped)[12]? = some (1 / 200) ∧
    loanArmUncapped._armMaximumInterestRate / 12 / 100 < 1 / 50 ∧
    ¬ ((1 : ℚ) / 50 ≤ 1 / 200) := by
  decide

/-! ## Rounding-grid lemmas for the payment decomposition -/

/-- Powers of ten are positive. -/
theorem tenZpow_pos (z : ℤ) : (0 : ℚ) < 10 ^ z := zpow_pos (by norm_num) z

/-- Grid points are closed under addition. -/
theorem OnGrid.add {z : ℤ} {a b : ℚ} (ha : OnGrid z a) (hb : OnGrid z b) :
    OnGrid z (a + b) := by
  obtain ⟨m, rfl⟩ := ha
  obtain ⟨n, rfl⟩ := hb
  exact ⟨m + n, by push_cast [add_div]; ring⟩

/-- The output of the rounding helper is a grid point. -/
theorem jsRoundTo_onGrid (f : ℚ) (hf : f.den = 1) (x : ℚ) :
    OnGrid f.num (jsRoundTo x f) := by
  unfold jsRoundTo
  rw [if_pos hf]
  exact ⟨_, rfl⟩

/-- Rounding fixes grid points (the epsilon bias being too small to
cross the half-way mark). -/
theorem jsRoundTo_eq_self (f : ℚ) (hf : GoodRounding f) (q : ℚ)
    (hq : OnGrid f.num q) : jsRoundTo q f = q := by
  obtain ⟨hden, hsmall⟩ := hf
  obtain ⟨m, rfl⟩ := hq
  unfold jsRoundTo
  rw [if_pos hden]
  have hpos : (0 : ℚ) < 10 ^ f.num := tenZpow_pos _
  have heps : (0 : ℚ) < jsEpsilon * 10 ^ f.num := by
    apply mul_pos _ hpos
    norm_num [jsEpsilon]
  have harg : ((m : ℚ) / 10 ^ f.num + jsEpsilon) * 10 ^ f.num + 1 / 2
      = (m : ℚ) + (jsEpsilon * 10 ^ f.num + 1 / 2) := by
    field_simp
    ring
  rw [harg]
  have hfloor : ⌊(m : ℚ) + (jsEpsilon * 10 ^ f.num + 1 / 2)⌋ = m := by
    rw [Int.floor_eq_iff]
    constructor
    · linarith
    · linarith
  rw [hfloor]

/-- Rounding is monotone. -/
theorem jsRoundTo_mono (f : ℚ) {a b : ℚ} (hab : a ≤ b) :
    jsRoundTo a f ≤ jsRoundTo b f := by
  unfold jsRoundTo
  split_ifs with h
  · have hpos : (0 : ℚ) < 10 ^ f.num := tenZpow_pos _
    have hfl : ⌊(a + jsEpsilon) * 10 ^ f.num + 1 / 2⌋ ≤
        ⌊(b + jsEpsilon) * 10 ^ f.num + 1 / 2⌋ := by
      apply Int.floor_le_floor
      have : (a + jsEpsilon) * 10 ^ f.num ≤ (b + jsEpsilon) * 10 ^ f.num :=
        mul_le_mul_of_nonneg_right (by linarith) (le_of_lt hpos)
      linarith
    have hcast : ((⌊(a + jsEpsilon) * 10 ^ f.num + 1 / 2⌋ : ℤ) : ℚ) ≤
        ((⌊(b + jsEpsilon) * 10 ^ f.num + 1 / 2⌋ : ℤ) : ℚ) := by exact_mod_cast hfl
    gcongr
  · exact hab

/-- Subtracting a grid point commutes with rounding. -/
theorem jsRoundTo_sub_grid (f : ℚ) (hf : f.den = 1) (a g : ℚ)
    (hg : OnGrid f.num g) : jsRoundTo (a - g) f = jsRoundTo a f - g := by
  obtain ⟨m, rfl⟩ := hg
  unfold jsRoundTo
  rw [if_pos hf, if_pos hf]
  have hpos : (0 : ℚ) < 10 ^ f.num := tenZpow_pos f.num
  have harg : (a - (m : ℚ) / 10 ^ f.num + jsEpsilon) * 10 ^ f.num + 1 / 2
      = ((a + jsEpsilon) * 10 ^ f.num + 1 / 2) - (m : ℚ) := by
    field_simp
    ring
  rw [harg, Int.floor_sub_int]
  push_cast
  rw [sub_div]

/-- Amount decomposition invariant of the loop: starting from a grid
balance, every emitted row has `amount = principal + interest`. -/
theorem CalcCtx.scheduleRows_amount_decomp (c : CalcCtx) (hf : GoodRounding c.rounding) :
    ∀ fuel p rate bal, OnGrid c.rounding.num bal →
      ∀ row ∈ (c.scheduleRows p fuel rate bal).1,
        row.amount = row.principal + row.interest := by
  intro fuel
  induction fuel with
  | zero =>
    intro p rate bal hbal row hrow
    rw [c.scheduleRows_zero] at hrow
    simp at hrow
  | succ n ih =>
    intro p rate bal hbal row hrow
    by_cases hb : 0 < bal
    · obtain ⟨r0, heq, hrate, hint, hcases, hbal1⟩ := c.scheduleRows_succ_pos p n rate bal hb
      simp only [CalcCtx.round] at hint hcases hbal1
      rw [heq] at hrow
      have hintg : OnGrid c.rounding.num r0.interest := by
        rw [hint]
        exact jsRoundTo_onGrid _ hf.1 _
      have hbal1g : OnGrid c.rounding.num r0.balance := by
        rw [hbal1]
        exact jsRoundTo_onGrid _ hf.1 _
      rcases List.mem_cons.mp hrow with hr0 | hmem
      · subst hr0
        rcases hcases with ⟨hioc, hamt, hpr⟩ | ⟨hioc, hamt, hpr⟩
        · have hkey : jsRoundTo (c.repayment - row.interest + c.extraPayment) c.rounding
              = jsRoundTo (c.repayment + c.extraPayment) c.rounding - row.interest := by
            rw [show c.repayment - row.interest + c.extraPayment
                = (c.repayment + c.extraPayment) - row.interest from by ring]
            exact jsRoundTo_sub_grid _ hf.1 _ _ hintg
          rcases le_total (c.repayment + c.extraPayment) (bal + row.interest) with hle | hge
          · rw [min_eq_left hle] at hamt
            have h1 : jsRoundTo (c.repayment + c.extraPayment) c.rounding ≤
                bal + row.interest := by
              calc jsRoundTo (c.repayment + c.extraPayment) c.rounding
                  ≤ jsRoundTo (bal + row.interest) c.rounding := jsRoundTo_mono _ hle
                _ = bal + row.interest := jsRoundTo_eq_self _ hf _ (hbal.add hintg)
            have h2 : jsRoundTo (c.repayment - row.interest + c.extraPayment) c.rounding
                ≤ bal := by
              rw [hkey]
              linarith
            rw [min_eq_left h2] at hpr
            rw [hamt, hpr, hkey]
            ring
          · rw [min_eq_right hge] at hamt
            have h1 : bal + row.interest ≤
                jsRoundTo (c.repayment + c.extraPayment) c.rounding := by
              calc bal + row.interest
                  = jsRoundTo (bal + row.interest) c.rounding :=
                    (jsRoundTo_eq_self _ hf _ (hbal.add hintg)).symm
                _ ≤ jsRoundTo (c.repayment + c.extraPayment) c.rounding :=
                    jsRoundTo_mono _ hge
            have h2 : bal ≤
                jsRoundTo (c.repayment - row.interest + c.extraPayment) c.rounding := by
              rw [hkey]
              linarith
            rw [min_eq_right h2] at hpr
            rw [hamt, hpr, jsRoundTo_eq_self _ hf _ (hbal.add hintg)]
        · rw [hamt, hpr]
          exact (zero_add _).symm
      · exact ih (p + 1) r0.rate r0.balance hbal1g row hmem
    · rw [c.scheduleRows_nonpos p n rate bal hb] at hrow
      simp at hrow

/-- C9 (amended): when the principal amount lies on the rounding grid
and the digit count is good (integer, with a negligible epsilon bias —
true of the default 8), every payment of the schedule, interest-only,
amortizing, capped and tail-correction alike, satisfies
`amount = principal + interest` exactly.  An off-grid amount refutes
the unconditional claim (see the counterexample). -/
theorem loan_c9_amount_decomposition (s : Loan)
    (hcal : s._calculated = false) (h1 : s._amount ≠ 0) (h2 : s._termInMonths ≠ 0)
    (h3 : s._rate ≠ 0) (hf : GoodRounding s._rounding)
    (hamount : OnGrid s._rounding.num s._amount) :
    ∀ pay ∈ s.payments, pay.amount = pay.principal + pay.interest := by
  intro pay hpay
  have hpays : s.payments = (s.runCalculate)._payments := by
    unfold Loan.payments
    rw [Loan.calculate_of_dirty s hcal h1 h2 h3]
  have hsched : s.scheduleResult =
      (s.calcCtx).scheduleRows 0 s.paymentsCountTotalNat
        s._calcInterestRateForPeriod s._amount := rfl
  rw [hpays, Loan.runCalculate_payments, hsched] at hpay
  have hdecomp := (s.calcCtx).scheduleRows_amount_decomp hf
    s.paymentsCountTotalNat 0 s._calcInterestRateForPeriod s._amount hamount
  by_cases htail : 1 / 100 <
      jsRoundTo ((s.calcCtx).scheduleRows 0 s.paymentsCountTotalNat
        s._calcInterestRateForPeriod s._amount).2 2
  · rw [if_pos htail] at hpay
    rcases List.mem_append.mp hpay with hmap | hsingle
    · rcases List.mem_map.mp hmap with ⟨row, hrowmem, hrow⟩
      rw [← hrow]
      exact hdecomp row hrowmem
    · rcases List.mem_singleton.mp hsingle with rfl
      exact (add_zero _).symm
  · rw [if_neg htail] at hpay
    rcases List.mem_map.mp hpay with ⟨row, hrowmem, hrow⟩
    rw [← hrow]
    exact hdecomp row hrowmem

/-- C9 witness: the grid loan satisfies the hypotheses and every one of
its payments decomposes exactly. -/
theorem loan_c9_amount_decomposition_witness :
    (loanGrid._calculated = false ∧ loanGrid._amount ≠ 0 ∧ loanGrid._termInMonths ≠ 0 ∧
      loanGrid._rate ≠ 0 ∧ GoodRounding loanGrid._rounding ∧
      OnGrid loanGrid._rounding.num loanGrid._amount) ∧
    ∀ pay ∈ Loan.payments loanGrid, pay.amount = pay.principal + pay.interest :=
  ⟨⟨rfl, by decide, by decide, by decide, by exact ⟨by decide, by decide⟩,
      ⟨150000000000, by decide⟩⟩,
    loan_c9_amount_decomposition loanGrid rfl (by decide) (by decide) (by decide)
      ⟨by decide, by decide⟩ ⟨150000000000, by decide⟩⟩
